import Mathlib

/-!
Verification of the `mxnet::cpp` Symbol binding layer (src/include/symbol.h).

The repository fragment is a wrapper around an external native engine reached
through a C ABI of opaque handles.  The header declares the wrapper class
`Symbol` and the handle holder `SymBlob`; the method bodies live in an
implementation file that is not part of src/, so those bodies and the engine
calls they forward to are modelled from the specification (each such
definition carries a doc comment starting `Modelled from the spec:`).
Opaque engine handles are embedded as natural numbers.  Everything lives in
the namespace `mxnet.cpp`, mirroring the C++ namespace of the source.
-/

namespace mxnet.cpp

/-- A graph node stored by the engine: either a named variable node or an
operator node applied to a list of input handles together with its string
key/value configuration pairs.  Modelled from the spec: the engine's graph
store is external; the spec describes a variable-node creation call taking a
name and a graph-node creation call taking an operator name, input handles and
configuration pairs. -/
inductive SymNode where
  | var (name : String)
  | op (opName : String) (inputs : List Nat) (config : List (String × String))
deriving DecidableEq, Repr

/-- Modelled from the spec: the observable state of the external engine.
`nodes` maps allocated symbol handles to graph nodes (most recent binding
first), `next` is the next fresh symbol handle, `freed` records every
handle-free call made so far, `nextExec` is the next fresh executor handle,
`execAllocated` the executor handles handed out, and `execFreed` records every
executor-free call. -/
structure EngineState where
  nodes : List (Nat × SymNode)
  next : Nat
  freed : List Nat
  nextExec : Nat
  execAllocated : List Nat
  execFreed : List Nat
deriving DecidableEq, Repr

/-- The empty engine state: nothing allocated, nothing freed. -/
def EngineState.init : EngineState :=
  { nodes := [], next := 0, freed := [], nextExec := 0,
    execAllocated := [], execFreed := [] }

/-- Look a key up in an association list, returning the most recent binding. -/
def lookupKey {α β : Type} [DecidableEq α] (l : List (α × β)) (k : α) :
    Option β :=
  match l with
  | [] => none
  | (k₀, v) :: rest => if k₀ = k then some v else lookupKey rest k

/-- Look a symbol handle up in the engine's node store. -/
def lookupNode (nodes : List (Nat × SymNode)) (h : Nat) : Option SymNode :=
  lookupKey nodes h

/-- Modelled from the spec: the engine's handle-free call ("a handle-free call
invoked exactly once per created handle").  The model records each free by
appending the handle to `freed`. -/
def MXSymbolFree (h : Nat) (st : EngineState) : EngineState :=
  { st with freed := h :: st.freed }

/-- How many times the engine has been asked to free handle `h`. -/
def freeCount (st : EngineState) (h : Nat) : Nat :=
  st.freed.count h

/-- Embedding of the SymBlob destructor (src/include/symbol.h line 29):
`~SymBlob() { MXSymbolFree(handle_); }`. -/
def SymBlob.destructor (handle_ : Nat) (st : EngineState) : EngineState :=
  MXSymbolFree handle_ st

/-- Modelled from the spec: `std::shared_ptr<SymBlob>` ownership (the
implementation file holding the wrapper bodies is not part of src/, and the
shared-pointer semantics come from the C++ standard library).  The state is
the engine state paired with the number of live owning `Symbol` copies;
destroying one owner decrements the count, and destroying the last owner runs
the SymBlob destructor. -/
def destroyOwner (handle_ : Nat) (p : EngineState × Nat) : EngineState × Nat :=
  match p with
  | (st, 0) => (st, 0)
  | (st, 1) => (SymBlob.destructor handle_ st, 0)
  | (st, k + 2) => (st, k + 1)

/-- Destroy `k` owning copies in sequence. -/
def destroyOwners (handle_ : Nat) (k : Nat) (p : EngineState × Nat) :
    EngineState × Nat :=
  match k with
  | 0 => p
  | k + 1 => destroyOwners handle_ k (destroyOwner handle_ p)

/-- Modelled from the spec: "a variable-node creation call taking a name" —
the engine allocates a fresh handle bound to a variable node and returns it. -/
def MXSymbolCreateVariable (name : String) (st : EngineState) :
    Nat × EngineState :=
  let node := SymNode.var name
  (st.next,
   { st with nodes := (st.next, node) :: st.nodes, next := st.next + 1 })

/-- Modelled from the spec: "a graph-node creation call taking an operator
name, input handles, and string key/value configuration pairs" — the engine
allocates a fresh handle bound to an operator node over the inputs. -/
def MXSymbolCreateFromOperator (opName : String) (inputValues : List Nat)
    (configKeys : List String) (configValues : List String)
    (st : EngineState) : Nat × EngineState :=
  let node := SymNode.op opName inputValues (configKeys.zip configValues)
  (st.next,
   { st with nodes := (st.next, node) :: st.nodes, next := st.next + 1 })

/-- Modelled from the spec: the engine clone call behind `Symbol::Copy`
requests a new engine-side node cloning the given handle. -/
def MXSymbolCopy (h : Nat) (st : EngineState) : Nat × EngineState :=
  match lookupNode st.nodes h with
  | some n =>
      (st.next,
       { st with nodes := (st.next, n) :: st.nodes, next := st.next + 1 })
  | none => (st.next, { st with next := st.next + 1 })

/-- Modelled from the spec: the argument names of a graph node are the names
of the variable nodes reachable through its inputs, collected left to right.
The first parameter is recursion fuel, needed because the node store is an
untyped handle graph; the engine supplies fuel no smaller than the handle
count, which covers every well-formed acyclic store. -/
def argNamesAux (nodes : List (Nat × SymNode)) :
    Nat → List Nat → List String
  | 0, _ => []
  | fuel + 1, hs =>
    hs.foldr
      (fun h acc =>
        (match lookupNode nodes h with
          | some (SymNode.var name) => [name]
          | some (SymNode.op _ inputs _) => argNamesAux nodes fuel inputs
          | none => []) ++ acc)
      []

/-- Modelled from the spec: "a name-listing call per graph node" — the
engine's argument-name listing for the node behind handle `h`, computed from
the current node store on every call. -/
def MXSymbolListArguments (st : EngineState) (h : Nat) : List String :=
  argNamesAux st.nodes st.next [h]

/-- Modelled from the spec: the engine's output-name listing: a variable node
outputs itself, an operator node has one output named after the operator. -/
def MXSymbolListOutputs (st : EngineState) (h : Nat) : List String :=
  match lookupNode st.nodes h with
  | some (SymNode.var name) => [name]
  | some (SymNode.op opName _ _) => [opName ++ "_output"]
  | none => []

/-- Modelled from the spec: the engine's auxiliary-state-name listing.  None
of the node kinds creatable through this fragment carries auxiliary state, so
the listing is empty for every handle in the modelled store. -/
def MXSymbolListAuxiliaryStates (_st : EngineState) (_h : Nat) : List String :=
  []

/-- Embedding of the Symbol wrapper (src/include/symbol.h line 172): its only
data member is `std::shared_ptr<SymBlob> blob_ptr_`; the blob stores one
engine handle, so a Symbol value is determined by that handle. -/
structure Symbol where
  blob_ptr_ : Nat
deriving DecidableEq, Repr

/-- Embedding of `Symbol::GetHandle` (src/include/symbol.h line 72):
`return blob_ptr_->handle_;`. -/
def Symbol.GetHandle (s : Symbol) : Nat :=
  s.blob_ptr_

/-- Modelled from the spec: the body of `Symbol::Variable` is not part of
src/; construction from a name creates a variable node via the engine and
wraps the returned handle. -/
def Symbol.Variable (st : EngineState) (name : String) :
    Symbol × EngineState :=
  let r := MXSymbolCreateVariable name st
  (Symbol.mk r.1, r.2)

/-- Embedding of the default argument of `Symbol::Variable` (src line 68):
calling `Variable()` with no argument calls it with the empty string. -/
def Symbol.VariableDefault (st : EngineState) : Symbol × EngineState :=
  Symbol.Variable st ""

/-- Modelled from the spec: `ListArguments` delegates to the engine's
name-listing call on the stored handle; the wrapper holds no cache field
(src line 172 shows `blob_ptr_` is the only data member) and mutates
nothing, so the call returns the fresh engine answer together with the
unchanged symbol and engine state. -/
def Symbol.ListArguments (s : Symbol) (st : EngineState) :
    List String × Symbol × EngineState :=
  (MXSymbolListArguments st s.GetHandle, s, st)

/-- Modelled from the spec: `ListOutputs` delegates to the engine's
output-name listing, mutating nothing. -/
def Symbol.ListOutputs (s : Symbol) (st : EngineState) :
    List String × Symbol × EngineState :=
  (MXSymbolListOutputs st s.GetHandle, s, st)

/-- Modelled from the spec: `ListAuxiliaryStates` delegates to the engine's
auxiliary-state-name listing, mutating nothing. -/
def Symbol.ListAuxiliaryStates (s : Symbol) (st : EngineState) :
    List String × Symbol × EngineState :=
  (MXSymbolListAuxiliaryStates st s.GetHandle, s, st)

/-- Modelled from the spec: `operator+` requests a new engine-side node
combining the two operand handles through the operator-creation call; no
local computation occurs. -/
def Symbol.plus (lhs rhs : Symbol) (st : EngineState) :
    Symbol × EngineState :=
  let r := MXSymbolCreateFromOperator "_Plus" [lhs.GetHandle, rhs.GetHandle]
    [] [] st
  (Symbol.mk r.1, r.2)

/-- Modelled from the spec: `Symbol::Copy` requests a new engine-side node
cloning the existing handle via the engine clone call. -/
def Symbol.Copy (s : Symbol) (st : EngineState) : Symbol × EngineState :=
  let r := MXSymbolCopy s.GetHandle st
  (Symbol.mk r.1, r.2)

/-- Embedding of the compiler-generated Symbol copy: the class declares no
copy operations of its own, so C++ generates a memberwise copy, which copies
the shared pointer `blob_ptr_` — the copy aliases the same blob and hence the
same engine handle. -/
def Symbol.copyCtor (s : Symbol) : Symbol :=
  { blob_ptr_ := s.blob_ptr_ }

/-- Embedding of `OpReqType`: the gradient-request enumeration.  The defining
header is not part of src/; the spec and the src doc comments (lines 117, 146,
162) give exactly the three values {kNullOp, kAddTo, kWriteTo}. -/
inductive OpReqType where
  | kNullOp
  | kAddTo
  | kWriteTo
deriving DecidableEq, Repr

/-- Embedding of an `NDArray` wrapper value as the opaque engine array handle
it holds; the NDArray header is not part of src/ and the claims only compare
array identities. -/
structure NDArray where
  handle : Nat
deriving DecidableEq, Repr

/-- Embedding of a `Context` value (device type and id); its header is not
part of src/ and no claim inspects it. -/
structure Context where
  devType : Nat
  devId : Nat
deriving DecidableEq, Repr

/-- Modelled from the spec: "an executor-bind call taking argument arrays,
gradient arrays, gradient-request-type enumeration, and auxiliary arrays,
returning an executor handle".  The engine rejects mismatched
array/requirement counts with its own error; on success it returns a fresh
executor handle and records it as allocated. -/
def MXExecutorBind (st : EngineState) (h : Nat) (_ctx : Context)
    (argArrays gradArrays : List NDArray) (gradReqs : List OpReqType)
    (auxArrays : List NDArray) : Except String (Nat × EngineState) :=
  if argArrays.length = (MXSymbolListArguments st h).length ∧
     gradArrays.length = argArrays.length ∧
     gradReqs.length = argArrays.length ∧
     auxArrays.length = (MXSymbolListAuxiliaryStates st h).length then
    Except.ok (st.nextExec,
      { st with nextExec := st.nextExec + 1,
                execAllocated := st.nextExec :: st.execAllocated })
  else
    Except.error "MXExecutorBind: mismatched array and requirement counts"

/-- Modelled from the spec: `Symbol::Bind` forwards the arrays and gradient
requests to the engine's executor-bind call and returns its result unchanged
— the wrapper adds no validation, retry or recovery, keeps no reference to
the executor, and hands the fresh executor handle to the caller. -/
def Symbol.Bind (s : Symbol) (ctx : Context)
    (argArrays gradArrays : List NDArray) (gradReqs : List OpReqType)
    (auxArrays : List NDArray) (st : EngineState) :
    Except String (Nat × Symbol × EngineState) :=
  match MXExecutorBind st s.GetHandle ctx argArrays gradArrays gradReqs
      auxArrays with
  | Except.ok r => Except.ok (r.1, s, r.2)
  | Except.error e => Except.error e

/-- Modelled from the spec: `InferExecutorArrays` assembles, for each argument
name of the symbol in order, the argument array from `argsMap` (a freshly
inferred array otherwise), the gradient array from `argGradStore` (a freshly
inferred array otherwise), and the gradient request from `gradReqType`,
defaulting to overwrite (kWriteTo); auxiliary arrays follow the engine's
auxiliary-state list.  Freshly inferred arrays are engine-allocated; their
identities are irrelevant to the embedded claims and are modelled as handle
0.  The std::map arguments are embedded as association lists. -/
def Symbol.InferExecutorArrays (s : Symbol) (_ctx : Context)
    (argsMap : List (String × NDArray))
    (argGradStore : List (String × NDArray))
    (gradReqType : List (String × OpReqType))
    (st : EngineState) :
    List NDArray × List NDArray × List OpReqType × List NDArray :=
  let argNameList := MXSymbolListArguments st s.GetHandle
  let argArrays := argNameList.map fun n =>
    match lookupKey argsMap n with
    | some a => a
    | none => NDArray.mk 0
  let gradArrays := argNameList.map fun n =>
    match lookupKey argGradStore n with
    | some a => a
    | none => NDArray.mk 0
  let gradReqs := argNameList.map fun n =>
    match lookupKey gradReqType n with
    | some r => r
    | none => OpReqType.kWriteTo
  let auxArrays := (MXSymbolListAuxiliaryStates st s.GetHandle).map fun _ =>
    NDArray.mk 0
  (argArrays, gradArrays, gradReqs, auxArrays)

/-- Modelled from the spec: `SimpleBind` infers the executor arrays from the
given maps and requests the executor from the engine through `Bind`. -/
def Symbol.SimpleBind (s : Symbol) (ctx : Context)
    (argsMap : List (String × NDArray))
    (argGradStore : List (String × NDArray))
    (gradReqType : List (String × OpReqType))
    (st : EngineState) : Except String (Nat × Symbol × EngineState) :=
  let r := s.InferExecutorArrays ctx argsMap argGradStore gradReqType st
  s.Bind ctx r.1 r.2.1 r.2.2.1 r.2.2.2 st

/-- An engine state is executor-well-formed when every executor handle handed
out so far is below the fresh-handle counter; this holds for every state
reachable from `EngineState.init`. -/
def execWF (st : EngineState) : Prop :=
  ∀ x ∈ st.execAllocated, x < st.nextExec

instance (st : EngineState) : Decidable (execWF st) := by
  unfold execWF
  infer_instance

/-- Deep embedding of the operations the source makes available on SymBlob
objects (src/include/symbol.h lines 16-38): default construction (`handle_`
starts as nullptr, modelled as `none`), construction from a handle, and
destruction.  The copy constructor and copy assignment are declared private
and never defined (lines 36-37), so no copy operation is available and none
appears in this operation set. -/
inductive BlobOp where
  | mkDefault
  | mkFromHandle (h : Nat)
  | destroy (i : Nat)
deriving DecidableEq, Repr

/-- The handles stored by the live SymBlob objects after running a sequence
of blob operations, starting from the given live objects.  Construction
prepends a new object; `destroy i` removes the object at position `i`
(out-of-range indices remove nothing). -/
def runBlobOps : List BlobOp → List (Option Nat) → List (Option Nat)
  | [], live => live
  | BlobOp.mkDefault :: rest, live => runBlobOps rest (none :: live)
  | BlobOp.mkFromHandle h :: rest, live => runBlobOps rest (some h :: live)
  | BlobOp.destroy i :: rest, live => runBlobOps rest (live.eraseIdx i)

/-! Helper lemmas. -/

theorem lookupKey_cons_self {α β : Type} [DecidableEq α] (k : α) (v : β)
    (rest : List (α × β)) : lookupKey ((k, v) :: rest) k = some v := by
  simp [lookupKey]

theorem lookupKey_cons_ne {α β : Type} [DecidableEq α] {k₀ k : α} (v : β)
    (rest : List (α × β)) (hne : k₀ ≠ k) :
    lookupKey ((k₀, v) :: rest) k = lookupKey rest k := by
  simp [lookupKey, hne]

/-- Destroying fewer owners than exist leaves the engine untouched and the
remaining count positive. -/
theorem destroyOwners_below (handle_ : Nat) :
    ∀ k n st, k < n → destroyOwners handle_ k (st, n) = (st, n - k) := by
  intro k
  induction k with
  | zero => intro n st _; rfl
  | succ m ih =>
      intro n st hlt
      obtain ⟨p, rfl⟩ : ∃ p, n = p + 2 := ⟨n - 2, by omega⟩
      show destroyOwners handle_ m (destroyOwner handle_ (st, p + 2)) = _
      have hstep : destroyOwner handle_ (st, p + 2) = (st, p + 1) := rfl
      rw [hstep, ih (p + 1) st (by omega)]
      congr 1
      omega

/-- Destroying every owner runs the SymBlob destructor, hence the engine
free call, exactly once. -/
theorem destroyOwners_last (handle_ : Nat) :
    ∀ n st, destroyOwners handle_ (n + 1) (st, n + 1)
      = (MXSymbolFree handle_ st, 0) := by
  intro n
  induction n with
  | zero => intro st; rfl
  | succ m ih =>
      intro st
      show destroyOwners handle_ (m + 1) (destroyOwner handle_ (st, m + 2)) = _
      have hstep : destroyOwner handle_ (st, m + 2) = (st, m + 1) := rfl
      rw [hstep]
      exact ih st

/-! Claim theorems. -/

/-- C1: for every Symbol and every set of Symbol copies sharing one
underlying handle, the engine handle-free call is invoked on that handle
exactly once, and only after the last owning copy is destroyed: after
destroying any `k < n` of the `n` owning copies the free count of the handle
is unchanged, and after destroying all `n` it has grown by exactly one. -/
theorem c1_handle_freed_once_after_last_copy (st : EngineState)
    (handle_ n k : Nat) (hk : k < n) :
    freeCount (destroyOwners handle_ k (st, n)).1 handle_
        = freeCount st handle_ ∧
    freeCount (destroyOwners handle_ n (st, n)).1 handle_
        = freeCount st handle_ + 1 := by
  constructor
  · rw [destroyOwners_below handle_ k n st hk]
  · obtain ⟨m, rfl⟩ : ∃ m, n = m + 1 := ⟨n - 1, by omega⟩
    rw [destroyOwners_last handle_ m st]
    simp [freeCount, MXSymbolFree]

/-- Witness for C1 at three copies of handle 7, with two destroyed first. -/
theorem c1_witness :
    freeCount (destroyOwners 7 2 (EngineState.init, 3)).1 7
        = freeCount EngineState.init 7 ∧
    freeCount (destroyOwners 7 3 (EngineState.init, 3)).1 7
        = freeCount EngineState.init 7 + 1 :=
  c1_handle_freed_once_after_last_copy EngineState.init 7 3 2 (by decide)

/-- C2: for every name string `x`, constructing a variable via
`Symbol::Variable(x)` and then calling `ListArguments()` on the resulting
Symbol yields a sequence that contains `x`. -/
theorem c2_variable_listArguments_contains_name (st : EngineState)
    (x : String) :
    x ∈ (Symbol.ListArguments (Symbol.Variable st x).1
          (Symbol.Variable st x).2).1 := by
  simp [Symbol.Variable, MXSymbolCreateVariable, Symbol.ListArguments,
    MXSymbolListArguments, Symbol.GetHandle, argNamesAux, lookupNode,
    lookupKey]

/-- C10: `Symbol::Variable` may be called with no argument: the default
argument makes `Variable()` identical to `Variable("")`, and the resulting
unnamed variable is accepted, its argument list being exactly the empty
name. -/
theorem c10_variable_default_empty_name (st : EngineState) :
    Symbol.VariableDefault st = Symbol.Variable st "" ∧
    (Symbol.ListArguments (Symbol.VariableDefault st).1
        (Symbol.VariableDefault st).2).1 = [""] := by
  constructor
  · rfl
  · simp [Symbol.VariableDefault, Symbol.Variable, MXSymbolCreateVariable,
      Symbol.ListArguments, MXSymbolListArguments, Symbol.GetHandle,
      argNamesAux, lookupNode, lookupKey]

/-- C3: for every two variable Symbols with names `a` and `b`, the Symbol
produced by `operator+` is a new symbol — its handle differs from both
operand handles — and its `ListArguments()` result contains both `a` and
`b`. -/
theorem c3_plus_fresh_and_args_contain_both (st : EngineState)
    (a b : String) :
    let ra := Symbol.Variable st a
    let rb := Symbol.Variable ra.2 b
    let rp := Symbol.plus ra.1 rb.1 rb.2
    rp.1.GetHandle ≠ ra.1.GetHandle ∧ rp.1.GetHandle ≠ rb.1.GetHandle ∧
      a ∈ (Symbol.ListArguments rp.1 rp.2).1 ∧
      b ∈ (Symbol.ListArguments rp.1 rp.2).1 := by
  intro ra rb rp
  have h1 : st.next + 1 + 1 ≠ st.next := by omega
  have h2 : st.next + 1 ≠ st.next := by omega
  have h3 : st.next + 1 + 1 ≠ st.next + 1 := by omega
  refine ⟨?_, ?_, ?_, ?_⟩
  · show st.next + 1 + 1 ≠ st.next
    omega
  · show st.next + 1 + 1 ≠ st.next + 1
    omega
  · show a ∈ (Symbol.ListArguments rp.1 rp.2).1
    simp [rp, rb, ra, Symbol.ListArguments, MXSymbolListArguments,
      Symbol.plus, Symbol.Variable, MXSymbolCreateVariable,
      MXSymbolCreateFromOperator, Symbol.GetHandle, argNamesAux,
      lookupNode, lookupKey, h1, h2, h3]
  · show b ∈ (Symbol.ListArguments rp.1 rp.2).1
    simp [rp, rb, ra, Symbol.ListArguments, MXSymbolListArguments,
      Symbol.plus, Symbol.Variable, MXSymbolCreateVariable,
      MXSymbolCreateFromOperator, Symbol.GetHandle, argNamesAux,
      lookupNode, lookupKey, h1, h2, h3]

/-- C4: a `Bind` call whose array and gradient-request counts are mismatched
is rejected by the engine, and the wrapper propagates the engine's failure
signal unchanged: the wrapper call reports exactly the engine's error, with
no validation, retry or recovery of its own. -/
theorem c4_bind_mismatch_error_propagates_unchanged (s : Symbol)
    (ctx : Context) (argArrays gradArrays : List NDArray)
    (gradReqs : List OpReqType) (auxArrays : List NDArray)
    (st : EngineState) (hmis : gradArrays.length ≠ argArrays.length) :
    ∃ e, MXExecutorBind st s.GetHandle ctx argArrays gradArrays gradReqs
          auxArrays = Except.error e ∧
        Symbol.Bind s ctx argArrays gradArrays gradReqs auxArrays st
          = Except.error e := by
  refine ⟨"MXExecutorBind: mismatched array and requirement counts", ?_, ?_⟩
  · simp [MXExecutorBind, hmis]
  · simp [Symbol.Bind, MXExecutorBind, hmis]

/-- Witness for C4: one argument array against an empty gradient array. -/
theorem c4_witness :
    ∃ e, MXExecutorBind EngineState.init (Symbol.mk 0).GetHandle
          (Context.mk 1 0) [NDArray.mk 1] [] [] []
          = Except.error e ∧
        Symbol.Bind (Symbol.mk 0) (Context.mk 1 0) [NDArray.mk 1] [] [] []
          EngineState.init = Except.error e :=
  c4_bind_mismatch_error_propagates_unchanged (Symbol.mk 0) (Context.mk 1 0)
    [NDArray.mk 1] [] [] [] EngineState.init (by decide)

/-- C5: each call to `ListArguments`, `ListOutputs` or
`ListAuxiliaryStates` leaves the Symbol (its stored handle) and the engine
state unchanged, and its answer is exactly the engine's fresh answer for the
engine state current at the call — no cache is consulted, so the result
always reflects the current engine-side graph. -/
theorem c5_list_calls_fresh_and_pure (s : Symbol) (st st' : EngineState) :
    ((Symbol.ListArguments s st).2 = (s, st) ∧
     (Symbol.ListOutputs s st).2 = (s, st) ∧
     (Symbol.ListAuxiliaryStates s st).2 = (s, st)) ∧
    ((Symbol.ListArguments s st').1 = MXSymbolListArguments st' s.GetHandle ∧
     (Symbol.ListOutputs s st').1 = MXSymbolListOutputs st' s.GetHandle ∧
     (Symbol.ListAuxiliaryStates s st').1
        = MXSymbolListAuxiliaryStates st' s.GetHandle) :=
  ⟨⟨rfl, rfl, rfl⟩, ⟨rfl, rfl, rfl⟩⟩

/-- A concrete symbol: the variable "x" created in the empty engine state. -/
def sX : Symbol := (Symbol.Variable EngineState.init "x").1

/-- The engine state after creating the variable "x". -/
def stX : EngineState := (Symbol.Variable EngineState.init "x").2

/-- A concrete device context. -/
def ctx0 : Context := Context.mk 1 0

/-- The engine state after additionally binding one executor in `stX`. -/
def stX2 : EngineState := { stX with nextExec := 1, execAllocated := [0] }

/-- C6: every successful `Bind` or `SimpleBind` returns a fresh executor
handle never handed out before, leaves the Symbol unchanged, leaves the
symbol-side engine state (nodes, handle counter, free record) unchanged, and
frees no executor — release is entirely the caller's responsibility. -/
theorem c6_bind_executor_fresh_and_caller_owned (s : Symbol) (ctx : Context)
    (argArrays gradArrays : List NDArray) (gradReqs : List OpReqType)
    (auxArrays : List NDArray)
    (argsMap argGradStore : List (String × NDArray))
    (gradReqType : List (String × OpReqType)) (st : EngineState)
    (hwf : execWF st) :
    (∀ eh s2 st2,
        Symbol.Bind s ctx argArrays gradArrays gradReqs auxArrays st
            = Except.ok (eh, s2, st2) →
        s2 = s ∧ eh ∉ st.execAllocated ∧ st2.execFreed = st.execFreed ∧
          st2.nodes = st.nodes ∧ st2.next = st.next ∧
          st2.freed = st.freed) ∧
    (∀ eh s2 st2,
        Symbol.SimpleBind s ctx argsMap argGradStore gradReqType st
            = Except.ok (eh, s2, st2) →
        s2 = s ∧ eh ∉ st.execAllocated ∧ st2.execFreed = st.execFreed ∧
          st2.nodes = st.nodes ∧ st2.next = st.next ∧
          st2.freed = st.freed) := by
  have key : ∀ (aa ga : List NDArray) (gr : List OpReqType)
      (xa : List NDArray) (eh : Nat) (s2 : Symbol) (st2 : EngineState),
      Symbol.Bind s ctx aa ga gr xa st = Except.ok (eh, s2, st2) →
      s2 = s ∧ eh ∉ st.execAllocated ∧ st2.execFreed = st.execFreed ∧
        st2.nodes = st.nodes ∧ st2.next = st.next ∧
        st2.freed = st.freed := by
    intro aa ga gr xa eh s2 st2 hok
    unfold Symbol.Bind at hok
    cases hbind : MXExecutorBind st s.GetHandle ctx aa ga gr xa with
    | error e =>
        rw [hbind] at hok
        exact absurd hok (by simp)
    | ok r =>
        rw [hbind] at hok
        simp only [Except.ok.injEq, Prod.mk.injEq] at hok
        obtain ⟨he, hs, hst⟩ := hok
        unfold MXExecutorBind at hbind
        split at hbind
        · simp only [Except.ok.injEq] at hbind
          subst hbind
          subst he
          subst hs
          subst hst
          refine ⟨rfl, ?_, rfl, rfl, rfl, rfl⟩
          intro hmem
          exact absurd (hwf _ hmem) (lt_irrefl _)
        · exact absurd hbind (by simp)
  refine ⟨fun eh s2 st2 hok => key _ _ _ _ eh s2 st2 hok,
    fun eh s2 st2 hok => ?_⟩
  unfold Symbol.SimpleBind at hok
  exact key _ _ _ _ eh s2 st2 hok

/-- Witness for C6: a concrete successful Bind and a concrete successful
SimpleBind on the variable "x". -/
theorem c6_witness :
    (sX = sX ∧ (0 : Nat) ∉ stX.execAllocated ∧
      stX2.execFreed = stX.execFreed ∧ stX2.nodes = stX.nodes ∧
      stX2.next = stX.next ∧ stX2.freed = stX.freed) ∧
    (sX = sX ∧ (0 : Nat) ∉ stX.execAllocated ∧
      stX2.execFreed = stX.execFreed ∧ stX2.nodes = stX.nodes ∧
      stX2.next = stX.next ∧ stX2.freed = stX.freed) := by
  have h := c6_bind_executor_fresh_and_caller_owned sX ctx0 [NDArray.mk 1]
    [NDArray.mk 2] [OpReqType.kWriteTo] [] [] [] [] stX (by decide)
  exact ⟨h.1 0 sX stX2 (by rfl), h.2 0 sX stX2 (by rfl)⟩

/-- C7: every gradient-request value assembled by `InferExecutorArrays` into
the grad_reqs output is one of the three enumeration values kNullOp, kAddTo,
kWriteTo, with one entry per input argument of the symbol, and `SimpleBind`
passes exactly these assembled arrays onward to the executor-bind call. -/
theorem c7_grad_reqs_enumeration_one_per_argument (s : Symbol)
    (ctx : Context) (argsMap argGradStore : List (String × NDArray))
    (gradReqType : List (String × OpReqType)) (st : EngineState) :
    (Symbol.InferExecutorArrays s ctx argsMap argGradStore gradReqType
        st).2.2.1.length = (MXSymbolListArguments st s.GetHandle).length ∧
    (∀ req ∈ (Symbol.InferExecutorArrays s ctx argsMap argGradStore
        gradReqType st).2.2.1,
        req = OpReqType.kNullOp ∨ req = OpReqType.kAddTo ∨
          req = OpReqType.kWriteTo) ∧
    Symbol.SimpleBind s ctx argsMap argGradStore gradReqType st
      = Symbol.Bind s ctx
          (Symbol.InferExecutorArrays s ctx argsMap argGradStore gradReqType
            st).1
          (Symbol.InferExecutorArrays s ctx argsMap argGradStore gradReqType
            st).2.1
          (Symbol.InferExecutorArrays s ctx argsMap argGradStore gradReqType
            st).2.2.1
          (Symbol.InferExecutorArrays s ctx argsMap argGradStore gradReqType
            st).2.2.2 st := by
  refine ⟨?_, ?_, rfl⟩
  · simp [Symbol.InferExecutorArrays]
  · intro req _
    cases req
    · exact Or.inl rfl
    · exact Or.inr (Or.inl rfl)
    · exact Or.inr (Or.inr rfl)

/-- C8: the compiler-generated copy of a Symbol aliases the same engine
handle, whereas `Copy()` requests a distinct engine-side node: for a valid
stored handle, the clone's handle is the fresh engine handle and differs
from the original. -/
theorem c8_copy_aliases_but_Copy_is_fresh (s : Symbol) (st : EngineState)
    (hvalid : s.GetHandle < st.next) :
    (Symbol.copyCtor s).GetHandle = s.GetHandle ∧
    (Symbol.Copy s st).1.GetHandle = st.next ∧
    (Symbol.Copy s st).1.GetHandle ≠ s.GetHandle := by
  have hc : (Symbol.Copy s st).1.GetHandle = st.next := by
    rcases hl : lookupNode st.nodes s.blob_ptr_ with _ | n <;>
      simp [Symbol.Copy, MXSymbolCopy, Symbol.GetHandle, hl]
  refine ⟨rfl, hc, ?_⟩
  rw [hc]
  omega

/-- Witness for C8: the variable "x" holds the valid handle 0 in `stX`. -/
theorem c8_witness :
    (Symbol.copyCtor sX).GetHandle = sX.GetHandle ∧
    (Symbol.Copy sX stX).1.GetHandle = stX.next ∧
    (Symbol.Copy sX stX).1.GetHandle ≠ sX.GetHandle :=
  c8_copy_aliases_but_Copy_is_fresh sX stX (by decide)

/-- C9: in every sequence of operations available on SymBlob objects (there
is no copy operation: the copy constructor and assignment are private and
undefined), the number of live blobs holding a given handle never exceeds
the number of from-handle constructions of that handle — blobs never come to
share a handle through copying, each holder arises from its own
construction. -/
theorem c9_blob_handle_only_from_construction (ops : List BlobOp)
    (live : List (Option Nat)) (h : Nat) :
    (runBlobOps ops live).count (some h)
      ≤ live.count (some h) + ops.count (BlobOp.mkFromHandle h) := by
  induction ops generalizing live with
  | nil => simp [runBlobOps]
  | cons o rest ih =>
    cases o with
    | mkDefault =>
        have step : runBlobOps (BlobOp.mkDefault :: rest) live
            = runBlobOps rest (none :: live) := rfl
        rw [step]
        refine le_trans (ih (none :: live)) ?_
        simp [List.count_cons]
    | mkFromHandle h0 =>
        have step : runBlobOps (BlobOp.mkFromHandle h0 :: rest) live
            = runBlobOps rest (some h0 :: live) := rfl
        rw [step]
        refine le_trans (ih (some h0 :: live)) ?_
        by_cases he : h0 = h
        · subst he
          simp [List.count_cons]
          omega
        · simp [List.count_cons, he, Ne.symm he]
    | destroy i =>
        have step : runBlobOps (BlobOp.destroy i :: rest) live
            = runBlobOps rest (live.eraseIdx i) := rfl
        rw [step]
        refine le_trans (ih (live.eraseIdx i)) ?_
        have hsub : (live.eraseIdx i).count (some h) ≤ live.count (some h) :=
          (List.eraseIdx_sublist live i).count_le _
        simp [List.count_cons]
        omega

end mxnet.cpp
